import Mathlib

/-!
Verification of the schema registry (Go sources: internal/schema registry,
internal/schema/types, internal/schema/formats/{avro,json,protobuf}).

The registry state machine is embedded shallowly: the NATS key-value bucket is
modelled as two association lists (the subject/version namespace and the by-ID
namespace) plus the config bucket (per-subject levels and the global level).
Schema text is opaque to the registry (it is only compared for equality and
handed to the injected format engine), so the embedding is parametric in the
text type; the JSON Schema engine is embedded at the level of the property
maps produced by getSchemaProperties. Byte strings are lists of Nat below 256.
-/

deriving instance DecidableEq for Except

namespace SchemaRegistry

/-- SchemaType from types.go: JSON, AVRO, PROTOBUF. -/
inductive SchemaType where
  | JSON
  | Avro
  | Protobuf
deriving DecidableEq, Repr

namespace types

/-- Compatibility level constant from types.go. -/
def Backward : String := "BACKWARD"

/-- Compatibility level constant from types.go. -/
def Forward : String := "FORWARD"

/-- Compatibility level constant from types.go. -/
def Full : String := "FULL"

/-- Compatibility level constant from types.go. -/
def None : String := "NONE"

/-- Compatibility level constant from types.go. -/
def BackwardTransitive : String := "BACKWARD_TRANSITIVE"

/-- Compatibility level constant from types.go. -/
def ForwardTransitive : String := "FORWARD_TRANSITIVE"

/-- Compatibility level constant from types.go. -/
def FullTransitive : String := "FULL_TRANSITIVE"

end types

/-! ### JSON Schema engine (internal/schema/formats/json/format.go)

getSchemaProperties extracts, from the top-level "properties" object, a map
from property name to (required?, type); we embed the engine on that map,
represented as an association list with the object key order. -/

/-- propertyInfo from the JSON format engine. -/
structure propertyInfo where
  required : Bool
  type_ : String
deriving DecidableEq, Repr

/-- The extracted top-level property map of a JSON schema. -/
abbrev JProps := List (String × propertyInfo)

namespace jsonformat

/-- Lookup in the property map (Go map indexing). -/
def lookupProp (ps : JProps) (name : String) : Option propertyInfo :=
  (ps.find? (fun p => p.1 == name)).map (·.2)

/-- isTypeCompatible from json/format.go: identity on the seven JSON type
names, false for anything else (integer does not unify with number). -/
def isTypeCompatible (oldType newType : String) : Bool :=
  if oldType == "null" then newType == "null"
  else if oldType == "boolean" then newType == "boolean"
  else if oldType == "integer" then newType == "integer"
  else if oldType == "number" then newType == "number"
  else if oldType == "string" then newType == "string"
  else if oldType == "array" then newType == "array"
  else if oldType == "object" then newType == "object"
  else false

/-- First loop of checkBackwardCompatibility in json/format.go: every
required old property must still exist in the new schema. -/
def backwardRequiredLoop (newP : JProps) : JProps → Except String Bool
  | [] => .ok true
  | (name, info) :: rest =>
    if info.required && (lookupProp newP name).isNone then
      .error ("required property " ++ name ++ " removed in new schema")
    else backwardRequiredLoop newP rest

/-- Second loop of checkBackwardCompatibility in json/format.go: properties
present in both schemas must keep a compatible type. -/
def backwardTypeLoop (newP : JProps) : JProps → Except String Bool
  | [] => .ok true
  | (name, oldInfo) :: rest =>
    match lookupProp newP name with
    | some newInfo =>
      if !isTypeCompatible oldInfo.type_ newInfo.type_ then
        .error ("incompatible type change for property " ++ name)
      else backwardTypeLoop newP rest
    | none => backwardTypeLoop newP rest

/-- checkBackwardCompatibility from json/format.go (the engine the registry
imports): required-removal loop, then common-property type loop. There is no
check that a property became required. -/
def checkBackwardCompatibility (oldP newP : JProps) : Except String Bool :=
  match backwardRequiredLoop newP oldP with
  | .error e => .error e
  | .ok _ => backwardTypeLoop newP oldP

/-- First loop of checkForwardCompatibility in json/format.go: every required
new property must exist in the old schema. -/
def forwardRequiredLoop (oldP : JProps) : JProps → Except String Bool
  | [] => .ok true
  | (name, info) :: rest =>
    if info.required && (lookupProp oldP name).isNone then
      .error ("required property " ++ name ++ " added in new schema")
    else forwardRequiredLoop oldP rest

/-- Second loop of checkForwardCompatibility in json/format.go. -/
def forwardTypeLoop (oldP : JProps) : JProps → Except String Bool
  | [] => .ok true
  | (name, newInfo) :: rest =>
    match lookupProp oldP name with
    | some oldInfo =>
      if !isTypeCompatible oldInfo.type_ newInfo.type_ then
        .error ("incompatible type change for property " ++ name)
      else forwardTypeLoop oldP rest
    | none => forwardTypeLoop oldP rest

/-- checkForwardCompatibility from json/format.go. -/
def checkForwardCompatibility (oldP newP : JProps) : Except String Bool :=
  match forwardRequiredLoop oldP newP with
  | .error e => .error e
  | .ok _ => forwardTypeLoop oldP newP

/-- CheckCompatibility from json/format.go, after both schemas compiled: the
switch on the level. The default branch (reached by NONE and by any level
string outside the six checking levels) returns (true, nil). -/
def CheckCompatibility (oldP newP : JProps) (level : String) : Except String Bool :=
  if level == types.Backward || level == types.BackwardTransitive then
    checkBackwardCompatibility oldP newP
  else if level == types.Forward || level == types.ForwardTransitive then
    checkForwardCompatibility oldP newP
  else if level == types.Full || level == types.FullTransitive then
    match checkBackwardCompatibility oldP newP with
    | .error e => .error e
    | .ok false => .ok false
    | .ok true => checkForwardCompatibility oldP newP
  else .ok true

end jsonformat

/-! ### The duplicate JSON engine (the json format file of unknown path)

The repository carries a second implementation of the JSON format package
whose backward check additionally rejects a property that became required,
and whose level switch fails closed on unknown levels. -/

namespace jsonalt

/-- The single loop of isBackwardCompatible in the duplicate JSON engine:
required-removal, type compatibility, and the became-required rejection. -/
def isBackwardLoop (newP : JProps) : JProps → Except String Bool
  | [] => .ok true
  | (name, oldProp) :: rest =>
    match jsonformat.lookupProp newP name with
    | none =>
      if oldProp.required then
        .error ("required property " ++ name ++ " was removed")
      else isBackwardLoop newP rest
    | some newProp =>
      if !jsonformat.isTypeCompatible oldProp.type_ newProp.type_ then
        .error ("incompatible types for property " ++ name ++ ": " ++
          oldProp.type_ ++ " -> " ++ newProp.type_)
      else if !oldProp.required && newProp.required then
        .error ("property " ++ name ++ " became required")
      else isBackwardLoop newP rest

/-- isBackwardCompatible from the duplicate JSON engine. -/
def isBackwardCompatible (oldP newP : JProps) : Except String Bool :=
  isBackwardLoop newP oldP

end jsonalt

/-! ### Level dispatch of the Avro and Protobuf engines

The field-level checkers of the Avro and Protobuf engines parse their format
libraries recursively and are not needed by any claim; what the claims turn
on is the switch on the level, embedded here over the results of the two
pairwise checkers. -/

/-- The level switch of CheckCompatibility in avro/format.go, given the
results of isBackwardCompatible and isForwardCompatible on the parsed pair.
The default branch (NONE has no explicit case in this file) returns
(true, nil). -/
def avroLevelDispatch (cb cf : Except String Bool) (level : String) : Except String Bool :=
  if level == types.Backward || level == types.BackwardTransitive then cb
  else if level == types.Forward || level == types.ForwardTransitive then cf
  else if level == types.Full || level == types.FullTransitive then
    match cb with
    | .error e => .error e
    | .ok false => .ok false
    | .ok true => cf
  else .ok true

/-- The level switch of CheckCompatibility in protobuf/format.go: NONE has an
explicit true case and the default branch returns an error. -/
def protobufLevelDispatch (cb cf : Except String Bool) (level : String) : Except String Bool :=
  if level == types.Backward || level == types.BackwardTransitive then cb
  else if level == types.Forward || level == types.ForwardTransitive then cf
  else if level == types.Full || level == types.FullTransitive then
    match cb with
    | .error e => .error e
    | .ok false => .ok false
    | .ok true => cf
  else if level == types.None then .ok true
  else .error ("unsupported compatibility level: " ++ level)

/-! ### Registry data model (internal/schema registry source)

The schemas bucket holds two key namespaces: subjects/(subject)/versions/(v)
and schemas/(id), each mapping to a JSON-encoded Schema whose fields repeat
the key. We model each namespace as a list of Schema records keyed by the
corresponding fields; KV put replaces the entry with the same key, KV delete
removes it. The config bucket holds per-subject levels plus the global one. -/

/-- Schema from types.go: text, subject, version, globally unique ID and the
format tag. The text type is a parameter: the registry only compares text
for equality and hands it to the injected format engine. -/
structure Schema (Text : Type) where
  schema : Text
  subject : String
  version : Nat
  id : Nat
  schemaType : SchemaType
deriving DecidableEq, Repr

/-- The SchemaFormat capability set from types.go (Validate, Serialize,
Deserialize, CheckCompatibility), over opaque text and data types; byte
strings are lists of Nat. -/
structure SchemaFormat (Text Data : Type) where
  validate : Text → Except String Unit
  serializeData : Data → Text → Except String (List Nat)
  deserializeData : List Nat → Text → Except String Data
  checkCompatibility : Text → Text → String → Except String Bool

/-- The durable state: the two schema namespaces and the config bucket. -/
structure RegState (Text : Type) where
  subjectEntries : List (Schema Text)
  idEntries : List (Schema Text)
  subjectConfig : List (String × String)
  globalConfig : Option String
deriving DecidableEq, Repr

namespace Registry

variable {Text Data : Type} [DecidableEq Text]

/-- KV get on the subjects/(s)/versions/(v) namespace. -/
def lookupSV (st : RegState Text) (s : String) (v : Nat) : Option (Schema Text) :=
  st.subjectEntries.find? (fun e => e.subject == s && e.version == v)

/-- KV get on the schemas/(id) namespace. -/
def lookupId (st : RegState Text) (i : Nat) : Option (Schema Text) :=
  st.idEntries.find? (fun e => e.id == i)

/-- KV get on the config/subjects/(s) namespace. -/
def lookupSubjectConfig (st : RegState Text) (s : String) : Option String :=
  (st.subjectConfig.find? (fun p => p.1 == s)).map (·.2)

/-- KV put of a subject/version entry (overwrites the entry with that key). -/
def putSV (st : RegState Text) (e : Schema Text) : RegState Text :=
  { st with subjectEntries := st.subjectEntries.filter (fun x => !(x.subject == e.subject && x.version == e.version)) ++ [e] }

/-- KV put of a by-ID entry (overwrites the entry with that key). -/
def putId (st : RegState Text) (e : Schema Text) : RegState Text :=
  { st with idEntries := st.idEntries.filter (fun x => !(x.id == e.id)) ++ [e] }

/-- KV delete of a subject/version entry. -/
def delSV (st : RegState Text) (s : String) (v : Nat) : RegState Text :=
  { st with subjectEntries := st.subjectEntries.filter (fun x => !(x.subject == s && x.version == v)) }

/-- KV delete of a by-ID entry. -/
def delId (st : RegState Text) (i : Nat) : RegState Text :=
  { st with idEntries := st.idEntries.filter (fun x => !(x.id == i)) }

/-- getLatestVersion: the highest version among the subject keys (0 when the
subject has none). -/
def getLatestVersion (st : RegState Text) (s : String) : Nat :=
  (st.subjectEntries.filterMap
    (fun e => if e.subject == s then some e.version else none)).foldl max 0

/-- The version list GetVersions collects from the subject keys and sorts
ascending. -/
def versionsOf (st : RegState Text) (s : String) : List Nat :=
  List.insertionSort (· ≤ ·)
    (st.subjectEntries.filterMap
      (fun e => if e.subject == s then some e.version else none))

/-- GetVersions: ascending version list, or the error used when the subject
has none. -/
def GetVersions (st : RegState Text) (s : String) : Except String (List Nat) :=
  let vs := versionsOf st s
  if vs.isEmpty then .error "no versions found" else .ok vs

/-- getNextSchemaID: highest existing by-ID key plus one. -/
def getNextSchemaID (st : RegState Text) : Nat :=
  (st.idEntries.map (·.id)).foldl max 0 + 1

/-- GetSchema: by-ID read. -/
def GetSchema (st : RegState Text) (i : Nat) : Except String (Schema Text) :=
  match lookupId st i with
  | some e => .ok e
  | none => .error ("schema not found: " ++ toString i)

/-- GetCompatibilityLevel: subject-specific config when stored (the store
path skips the subject lookup for the reserved name "global"), else the
global config, else the default BACKWARD. -/
def GetCompatibilityLevel (st : RegState Text) (s : String) : String :=
  if s != "global" then
    match lookupSubjectConfig st s with
    | some level => level
    | none => (st.globalConfig).getD types.Backward
  else (st.globalConfig).getD types.Backward

/-- The duplicate-content scan of RegisterSchema: the first by-ID entry whose
text and format match the request (allocated IDs are positive, so the Go
existingID > 0 test is exactly the found test). -/
def findContentMatch (st : RegState Text) (text : Text) (stype : SchemaType) :
    Option (Schema Text) :=
  st.idEntries.find? (fun e => e.schema == text && e.schemaType == stype)

/-- The write phase of RegisterSchema, after validation and the compatibility
gate: reuse the ID of a content-identical by-ID entry and write only the new
subject/version entry, or allocate the next ID and write both entries. -/
def registerWrite (st : RegState Text) (subject : String) (text : Text)
    (stype : SchemaType) (latestVersion : Nat) : Except String (Nat × RegState Text) :=
  match findContentMatch st text stype with
  | some existing =>
    let sch : Schema Text :=
      { schema := text, subject := subject, version := latestVersion + 1,
        id := existing.id, schemaType := stype }
    .ok (existing.id, putSV st sch)
  | none =>
    let nextID := getNextSchemaID st
    let sch : Schema Text :=
      { schema := text, subject := subject, version := latestVersion + 1,
        id := nextID, schemaType := stype }
    .ok (nextID, putSV (putId st sch) sch)

/-- RegisterSchema: validate, then (when a prior version exists) resolve the
level, return the latest ID when the request is content-identical to the
latest version, otherwise gate on the format engine applied to the latest
text only, then write. -/
def RegisterSchema (formats : SchemaType → Option (SchemaFormat Text Data))
    (st : RegState Text) (subject : String) (text : Text) (stype : SchemaType) :
    Except String (Nat × RegState Text) :=
  match formats stype with
  | none => .error "unsupported schema type"
  | some fmt =>
    match fmt.validate text with
    | .error e => .error ("validate schema: " ++ e)
    | .ok _ =>
      let latestVersion := getLatestVersion st subject
      if 0 < latestVersion then
        let level := GetCompatibilityLevel st subject
        match lookupSV st subject latestVersion with
        | none => .error "get latest schema"
        | some latestSchema =>
          if latestSchema.schema == text && latestSchema.schemaType == stype then
            .ok (latestSchema.id, st)
          else
            match fmt.checkCompatibility latestSchema.schema text level with
            | .error e => .error ("incompatible schema: " ++ e)
            | .ok false => .error "incompatible schema"
            | .ok true => registerWrite st subject text stype latestVersion
      else registerWrite st subject text stype latestVersion

/-- Whether the level is one of the three transitive levels. -/
def isTransitiveLevel (level : String) : Bool :=
  level == types.BackwardTransitive || level == types.ForwardTransitive ||
    level == types.FullTransitive

/-- The transitive loop of the registry CheckCompatibility: walk the versions
in ascending order, stop with an error when a version cannot be loaded or the
engine errs, with false on the first incompatible version. -/
def checkAllVersions (fmt : SchemaFormat Text Data) (st : RegState Text)
    (s : String) (newText : Text) (level : String) : List Nat → Except String Bool
  | [] => .ok true
  | v :: rest =>
    match lookupSV st s v with
    | none => .error "get schema by version"
    | some sch =>
      match fmt.checkCompatibility sch.schema newText level with
      | .error e => .error e
      | .ok false => .ok false
      | .ok true => checkAllVersions fmt st s newText level rest

/-- CheckCompatibility of the registry: empty subject is compatible; for the
transitive levels every version is checked in ascending order; otherwise only
the latest version is checked. -/
def CheckCompatibility (formats : SchemaType → Option (SchemaFormat Text Data))
    (st : RegState Text) (s : String) (newText : Text) (stype : SchemaType)
    (level : String) : Except String Bool :=
  match formats stype with
  | none => .error "unsupported schema type"
  | some fmt =>
    match GetVersions st s with
    | .error e => if e == "no versions found" then .ok true else .error e
    | .ok versions =>
      if isTransitiveLevel level then
        checkAllVersions fmt st s newText level versions
      else
        match lookupSV st s (versions.getLastD 0) with
        | none => .error "get schema by version"
        | some sch => fmt.checkCompatibility sch.schema newText level

/-- The scan loop of LookupSchema: versions in ascending order, first exact
text-and-format match wins; a version that fails to load is skipped. -/
def lookupLoop (st : RegState Text) (s : String) (text : Text)
    (stype : SchemaType) : List Nat → Except String (Schema Text)
  | [] => .error "schema not found"
  | v :: rest =>
    match lookupSV st s v with
    | none => lookupLoop st s text stype rest
    | some sch =>
      if sch.schema == text && sch.schemaType == stype then .ok sch
      else lookupLoop st s text stype rest

/-- LookupSchema: validate, then scan the ascending version list for the
first exact text-and-format match. -/
def LookupSchema (formats : SchemaType → Option (SchemaFormat Text Data))
    (st : RegState Text) (s : String) (text : Text) (stype : SchemaType) :
    Except String (Schema Text) :=
  match formats stype with
  | none => .error "unsupported schema type"
  | some fmt =>
    match fmt.validate text with
    | .error e => .error ("validate schema: " ++ e)
    | .ok _ =>
      match GetVersions st s with
      | .error e => .error e
      | .ok versions => lookupLoop st s text stype versions

/-- Model of strconv.Atoi on the nonnegative numerals that can name a
version (Go Atoi also accepts signed forms; their negative results name no
stored version and fail the existence check just like a parse failure). -/
def atoiNat (s : String) : Option Nat :=
  if s.data ≠ [] && s.data.all (fun c => c.isDigit) then
    some (s.data.foldl (fun n c => n * 10 + (c.toNat - 48)) 0)
  else none

/-- DeleteSchemaVersion: resolve "latest" or parse the numeral, require the
subject/version entry to exist, and delete only that entry. -/
def DeleteSchemaVersion (st : RegState Text) (subject version : String) :
    Except String (RegState Text) :=
  let vnum : Except String Nat :=
    if version == "latest" then .ok (getLatestVersion st subject)
    else
      match atoiNat version with
      | some n => .ok n
      | none => .error ("invalid version: " ++ version)
  match vnum with
  | .error e => .error e
  | .ok vn =>
    match lookupSV st subject vn with
    | none => .error "version not found"
    | some _ => .ok (delSV st subject vn)

/-- The deletion loop of DeleteSubject: for each version in ascending order,
read the entry, record its ID and delete the by-ID entry (unconditionally),
then delete the subject/version entry. -/
def deleteSubjectLoop (s : String) (vs : List Nat) (ids : List Nat)
    (st : RegState Text) : List Nat × RegState Text :=
  match vs with
  | [] => (ids, st)
  | v :: rest =>
    match lookupSV st s v with
    | some sch => deleteSubjectLoop s rest (ids ++ [sch.id]) (delSV (delId st sch.id) s v)
    | none => deleteSubjectLoop s rest ids (delSV st s v)

/-- DeleteSubject: delete every version of the subject together with the
by-ID entry of each version, returning the affected IDs in ascending version
order. -/
def DeleteSubject (st : RegState Text) (s : String) :
    Except String (List Nat × RegState Text) :=
  match GetVersions st s with
  | .error e => .error e
  | .ok versions => .ok (deleteSubjectLoop s versions [] st)

/-- The five-byte wire envelope: magic byte 0x00, the four big-endian ID
bytes produced from the 32-bit ID by shift-and-truncate, then the payload. -/
def wireBytes (id : Nat) (payload : List Nat) : List Nat :=
  0 :: (id >>> 24) % 256 :: (id >>> 16) % 256 :: (id >>> 8) % 256 :: id % 256 :: payload

/-- Serialize: look the schema up by ID, encode the data with its format
engine, and emit the wire envelope. -/
def Serialize (formats : SchemaType → Option (SchemaFormat Text Data))
    (st : RegState Text) (data : Data) (schemaID : Nat) : Except String (List Nat) :=
  match GetSchema st schemaID with
  | .error e => .error ("get schema: " ++ e)
  | .ok sch =>
    match formats sch.schemaType with
    | none => .error "unsupported schema type"
    | some fmt =>
      match fmt.serializeData data sch.schema with
      | .error e => .error ("serialize: " ++ e)
      | .ok payload => .ok (wireBytes schemaID payload)

/-- Deserialize: require five bytes, check the magic byte, recombine the four
big-endian ID bytes with bitwise or, look the schema up and hand the
remaining payload to its format engine. -/
def Deserialize (formats : SchemaType → Option (SchemaFormat Text Data))
    (st : RegState Text) (data : List Nat) : Except String Data :=
  match data with
  | b0 :: b1 :: b2 :: b3 :: b4 :: payload =>
    if b0 != 0 then .error "invalid magic byte"
    else
      let schemaID := (b1 <<< 24) ||| (b2 <<< 16) ||| (b3 <<< 8) ||| b4
      match GetSchema st schemaID with
      | .error e => .error ("get schema: " ++ e)
      | .ok sch =>
        match formats sch.schemaType with
        | none => .error "unsupported schema type"
        | some fmt => fmt.deserializeData payload sch.schema
  | _ => .error "data too short"

end Registry

/-! ### Concrete instantiation for scenario evaluation

The registry receives its format engines by injection (the formats map built
in New). For concrete runs we instantiate the opaque text type with the
extracted JSON property map, so the injected JSON engine is exactly the
embedded one; the data payload layer, opaque to every claim below, is the
identity byte codec, and validation of an already-parsed property map cannot
fail. -/

/-- The injected JSON engine over parsed property maps. -/
def jsonPropsFormat : SchemaFormat JProps (List Nat) where
  validate := fun _ => .ok ()
  serializeData := fun d _ => .ok d
  deserializeData := fun b _ => .ok b
  checkCompatibility := jsonformat.CheckCompatibility

/-- The formats map of a registry holding the JSON engine. -/
def formatsJ : SchemaType → Option (SchemaFormat JProps (List Nat))
  | .JSON => some jsonPropsFormat
  | _ => none

/-- A required integer property. -/
def propReqInt : propertyInfo := ⟨true, "integer"⟩

/-- A required string property. -/
def propReqStr : propertyInfo := ⟨true, "string"⟩

/-- An optional string property. -/
def propOptStr : propertyInfo := ⟨false, "string"⟩

/-- Property map of a schema with required integer a. -/
def tNum : JProps := [("a", propReqInt)]

/-- Property map of a schema with required string a. -/
def tStr : JProps := [("a", propReqStr)]

/-- Property map of a schema with required string a and optional string b. -/
def tStrB : JProps := [("a", propReqStr), ("b", propOptStr)]

/-- Version 1 of subject s: required integer a, ID 1. -/
def schS1 : Schema JProps := ⟨tNum, "s", 1, 1, .JSON⟩

/-- Version 2 of subject s: required string a, ID 2. -/
def schS2 : Schema JProps := ⟨tStr, "s", 2, 2, .JSON⟩

/-- The entry a third registration of subject s would write. -/
def schS3 : Schema JProps := ⟨tStrB, "s", 3, 3, .JSON⟩

/-- Subject s with two versions and level BACKWARD_TRANSITIVE. -/
def stTrans : RegState JProps :=
  ⟨[schS1, schS2], [schS1, schS2], [("s", types.BackwardTransitive)], none⟩

/-- stTrans after registering tStrB under s. -/
def stTransAfter : RegState JProps :=
  ⟨[schS1, schS2, schS3], [schS1, schS2, schS3], [("s", types.BackwardTransitive)], none⟩

/-- Distinct schema content x. -/
def tA : JProps := [("x", propOptStr)]

/-- Distinct schema content y. -/
def tB : JProps := [("y", propOptStr)]

/-- Distinct schema content z. -/
def tC : JProps := [("z", propOptStr)]

/-- The empty registry state. -/
def st0 : RegState JProps := ⟨[], [], [], none⟩

/-- Entry written by registering tA under subject A (ID 1). -/
def eA : Schema JProps := ⟨tA, "A", 1, 1, .JSON⟩

/-- Entry written by registering tB under subject B (ID 2). -/
def eB : Schema JProps := ⟨tB, "B", 1, 2, .JSON⟩

/-- Entry written by registering tC under subject C after deleting B: the
allocator hands out ID 2 a second time. -/
def eC : Schema JProps := ⟨tC, "C", 1, 2, .JSON⟩

/-- State after registering subject A. -/
def stA : RegState JProps := ⟨[eA], [eA], [], none⟩

/-- State after additionally registering subject B. -/
def stAB : RegState JProps := ⟨[eA, eB], [eA, eB], [], none⟩

/-- State after additionally registering subject C (post-delete). -/
def stAC : RegState JProps := ⟨[eA, eC], [eA, eC], [], none⟩

/-- Subject A version 1 of the shared-ID scenario. -/
def eSa : Schema JProps := ⟨tA, "A", 1, 1, .JSON⟩

/-- Subject B version 1 of the shared-ID scenario: same text and format as
eSa, hence the same ID 1. -/
def eSb : Schema JProps := ⟨tA, "B", 1, 1, .JSON⟩

/-- Two subjects sharing ID 1 (the by-ID entry was written by the first
registration, under subject A). -/
def stShared : RegState JProps := ⟨[eSa, eSb], [eSa], [], none⟩

/-- stShared after DeleteSubject A: the shared by-ID entry is gone. -/
def stSharedAfter : RegState JProps := ⟨[eSb], [], [], none⟩

/-- A one-version subject a with ID 1. -/
def eOne : Schema JProps := ⟨tA, "a", 1, 1, .JSON⟩

/-- Registry state holding only eOne. -/
def stOne : RegState JProps := ⟨[eOne], [eOne], [], none⟩

/-- A state with a subject level for a and a global level. -/
def stCfg : RegState JProps := ⟨[], [], [("a", types.Full)], some types.Forward⟩

/-- Subject m version 1: content tB, no match for tA. -/
def eM1 : Schema JProps := ⟨tB, "m", 1, 3, .JSON⟩

/-- Subject m version 2: content tA (the smallest matching version). -/
def eM2 : Schema JProps := ⟨tA, "m", 2, 4, .JSON⟩

/-- Subject m version 3: content tA again under the same ID. -/
def eM3 : Schema JProps := ⟨tA, "m", 3, 4, .JSON⟩

/-- A subject whose content tA appears at versions 2 and 3. -/
def stLk : RegState JProps := ⟨[eM1, eM2, eM3], [eM1, eM2], [], none⟩

/-! ## General lemmas -/

/-- The seed of a max fold is a lower bound of the result. -/
theorem le_foldl_max (l : List Nat) (a : Nat) : a ≤ l.foldl max a := by
  induction l generalizing a with
  | nil => simp
  | cons b t ih => exact le_trans (Nat.le_max_left a b) (ih (max a b))

/-- Every member of a list is bounded by its max fold. -/
theorem mem_le_foldl_max (l : List Nat) (a x : Nat) (hx : x ∈ l) : x ≤ l.foldl max a := by
  induction l generalizing a with
  | nil => cases hx
  | cons b t ih =>
    rcases List.mem_cons.mp hx with rfl | hx
    · exact le_trans (Nat.le_max_right a x) (le_foldl_max t _)
    · exact ih _ hx

/-- Filtering away elements that never satisfy the search predicate does not
change the search result. -/
theorem find?_filter_not {α : Type} (l : List α) (p q : α → Bool)
    (h : ∀ x, q x = true → p x = false) :
    (l.filter (fun x => !p x)).find? q = l.find? q := by
  induction l with
  | nil => rfl
  | cons a t ih =>
    by_cases hp : p a = true
    · have hq : q a = false := by
        cases hqa : q a
        · rfl
        · rw [h a hqa] at hp; cases hp
      simp [List.filter_cons, hp, List.find?_cons, hq, ih]
    · have hp2 : p a = false := by revert hp; cases p a <;> simp
      cases hqa : q a
      · simp [List.filter_cons, hp2, List.find?_cons, hqa, ih]
      · simp [List.filter_cons, hp2, List.find?_cons, hqa]

/-- A failing search still fails on any sublist obtained by filtering. -/
theorem find?_filter_of_none {α : Type} (l : List α) (p q : α → Bool)
    (h : l.find? q = none) : (l.filter p).find? q = none := by
  rw [List.find?_eq_none] at h ⊢
  intro x hx
  exact h x (List.mem_of_mem_filter hx)

/-- Bitwise or of disjoint summands is addition. -/
theorem lor_two_pow_mul_add {a b n : Nat} (hb : b < 2 ^ n) :
    (2 ^ n * a) ||| b = 2 ^ n * a + b := by
  apply Nat.eq_of_testBit_eq
  intro j
  rw [Nat.testBit_or, Nat.testBit_mul_pow_two_add a hb j, Nat.testBit_mul_pow_two]
  by_cases hj : j < n
  · have hng : ¬ j ≥ n := by omega
    simp [hj, hng]
  · have hge : j ≥ n := by omega
    have hbj : b.testBit j = false :=
      Nat.testBit_lt_two_pow (lt_of_lt_of_le hb (Nat.pow_le_pow_right (by omega) hge))
    simp [hj, hge, hbj]

/-- A byte shifted by k bits stays below 2 to the 8 + k. -/
theorem mul_two_pow_lt {x k m : Nat} (hx : x < 256) (hkm : 8 + k = m) :
    x * 2 ^ k < 2 ^ m := by
  subst hkm
  calc x * 2 ^ k < 256 * 2 ^ k := mul_lt_mul_of_pos_right hx (Nat.two_pow_pos k)
    _ = 2 ^ (8 + k) := by rw [Nat.pow_add]

/-- Recombining the four big-endian bytes of a 32-bit value with bitwise or
recovers the value. -/
theorem be32_roundtrip (id : Nat) (h : id < 2 ^ 32) :
    ((id >>> 24) % 256) <<< 24 ||| ((id >>> 16) % 256) <<< 16 |||
      ((id >>> 8) % 256) <<< 8 ||| id % 256 = id := by
  rw [Nat.shiftRight_eq_div_pow, Nat.shiftRight_eq_div_pow, Nat.shiftRight_eq_div_pow,
    Nat.shiftLeft_eq, Nat.shiftLeft_eq, Nat.shiftLeft_eq]
  have h2 : id / 2 ^ 16 % 256 < 256 := Nat.mod_lt _ (by omega)
  have h3 : id / 2 ^ 8 % 256 < 256 := Nat.mod_lt _ (by omega)
  have h4 : id % 256 < 256 := Nat.mod_lt _ (by omega)
  have s1 : id / 2 ^ 24 % 256 * 2 ^ 24 ||| id / 2 ^ 16 % 256 * 2 ^ 16
      = 2 ^ 24 * (id / 2 ^ 24 % 256) + id / 2 ^ 16 % 256 * 2 ^ 16 := by
    rw [show id / 2 ^ 24 % 256 * 2 ^ 24 = 2 ^ 24 * (id / 2 ^ 24 % 256) by ring]
    exact lor_two_pow_mul_add (mul_two_pow_lt h2 (by norm_num))
  rw [s1]
  have s2 : 2 ^ 24 * (id / 2 ^ 24 % 256) + id / 2 ^ 16 % 256 * 2 ^ 16
      ||| id / 2 ^ 8 % 256 * 2 ^ 8
      = 2 ^ 24 * (id / 2 ^ 24 % 256) + id / 2 ^ 16 % 256 * 2 ^ 16
        + id / 2 ^ 8 % 256 * 2 ^ 8 := by
    rw [show 2 ^ 24 * (id / 2 ^ 24 % 256) + id / 2 ^ 16 % 256 * 2 ^ 16
        = 2 ^ 16 * (2 ^ 8 * (id / 2 ^ 24 % 256) + id / 2 ^ 16 % 256) by ring]
    rw [lor_two_pow_mul_add (mul_two_pow_lt h3 (by norm_num))]
  rw [s2]
  have s3 : 2 ^ 24 * (id / 2 ^ 24 % 256) + id / 2 ^ 16 % 256 * 2 ^ 16
      + id / 2 ^ 8 % 256 * 2 ^ 8 ||| id % 256
      = 2 ^ 24 * (id / 2 ^ 24 % 256) + id / 2 ^ 16 % 256 * 2 ^ 16
        + id / 2 ^ 8 % 256 * 2 ^ 8 + id % 256 := by
    rw [show 2 ^ 24 * (id / 2 ^ 24 % 256) + id / 2 ^ 16 % 256 * 2 ^ 16
        + id / 2 ^ 8 % 256 * 2 ^ 8
        = 2 ^ 8 * (2 ^ 16 * (id / 2 ^ 24 % 256) + 2 ^ 8 * (id / 2 ^ 16 % 256)
          + id / 2 ^ 8 % 256) by ring]
    rw [lor_two_pow_mul_add (show id % 256 < 2 ^ 8 by omega)]
  rw [s3]
  have e24 : (2 : Nat) ^ 24 = 16777216 := by norm_num
  have e16 : (2 : Nat) ^ 16 = 65536 := by norm_num
  have e8 : (2 : Nat) ^ 8 = 256 := by norm_num
  have e32 : (2 : Nat) ^ 32 = 4294967296 := by norm_num
  rw [e24, e16, e8] at *
  rw [e32] at h
  omega

/-! ## Claims -/

/-- C1 (code bug): under level BACKWARD_TRANSITIVE, a schema whose text is
backward compatible with the latest version but not with version 1 is
nevertheless registered (RegisterSchema hands the transitive level to the
pairwise engine applied to the latest text only), while the registry's own
CheckCompatibility, which owns the transitive iteration, rejects the same
schema at version 1. -/
theorem registerTransitiveChecksOnlyLatest :
    Registry.RegisterSchema formatsJ stTrans "s" tStrB .JSON = .ok (3, stTransAfter) ∧
    Registry.CheckCompatibility formatsJ stTrans "s" tStrB .JSON
      types.BackwardTransitive = .error "incompatible type change for property a" := by
  constructor
  · decide
  · decide

/-- C2 (counterexample): register A, register B (ID 2), delete subject B,
register C: the allocator hands out ID 2 again, which is not strictly
greater than the previously allocated ID 2. -/
theorem idRegressionAfterDeleteSubject :
    Registry.RegisterSchema formatsJ st0 "A" tA .JSON = .ok (1, stA) ∧
    Registry.RegisterSchema formatsJ stA "B" tB .JSON = .ok (2, stAB) ∧
    Registry.DeleteSubject stAB "B" = .ok ([2], stA) ∧
    Registry.RegisterSchema formatsJ stA "C" tC .JSON = .ok (2, stAC) ∧
    ¬ 2 < 2 := by
  refine ⟨by decide, by decide, by decide, by decide, by omega⟩

/-- C2 (amended): a freshly allocated ID is strictly greater than the ID of
every by-ID entry live at allocation time; since deleteSubject removes by-ID
entries, an ID may be re-allocated after a deletion. -/
theorem nextSchemaIDExceedsLiveIds {Text : Type} (st : RegState Text)
    (e : Schema Text) (he : e ∈ st.idEntries) :
    e.id < Registry.getNextSchemaID st := by
  unfold Registry.getNextSchemaID
  have h := mem_le_foldl_max (st.idEntries.map (·.id)) 0 e.id
    (List.mem_map_of_mem _ he)
  omega

/-- Witness for the amended C2 theorem at a concrete live entry. -/
theorem nextSchemaIDExceedsLiveIdsWitness : eA.id < Registry.getNextSchemaID stA :=
  nextSchemaIDExceedsLiveIds stA eA (by decide)

/-- C4 (counterexample): the JSON engine imported by the registry returns
(true, nil) for a level string that is not one of the seven defined levels,
on a parseable pair of schemas. -/
theorem jsonUnknownLevelReturnsTrue :
    jsonformat.CheckCompatibility [("name", propOptStr)] [("name", propOptStr)]
      "BOGUS_LEVEL" = .ok true := by decide

/-- C4 (amended): on a level outside the six checking levels the Protobuf
engine fails closed with an error unless the level is NONE, while the Avro
and JSON engines reach their default branch and return true (NONE has no
explicit case in those two files). -/
theorem unknownLevelDispatch (level : String)
    (h1 : level ≠ types.Backward) (h2 : level ≠ types.BackwardTransitive)
    (h3 : level ≠ types.Forward) (h4 : level ≠ types.ForwardTransitive)
    (h5 : level ≠ types.Full) (h6 : level ≠ types.FullTransitive) :
    (∀ oldP newP : JProps, jsonformat.CheckCompatibility oldP newP level = .ok true) ∧
    (∀ cb cf, avroLevelDispatch cb cf level = .ok true) ∧
    (∀ cb cf, level ≠ types.None →
      protobufLevelDispatch cb cf level =
        .error ("unsupported compatibility level: " ++ level)) := by
  have e1 : (level == types.Backward) = false := by simp [h1]
  have e2 : (level == types.BackwardTransitive) = false := by simp [h2]
  have e3 : (level == types.Forward) = false := by simp [h3]
  have e4 : (level == types.ForwardTransitive) = false := by simp [h4]
  have e5 : (level == types.Full) = false := by simp [h5]
  have e6 : (level == types.FullTransitive) = false := by simp [h6]
  refine ⟨?_, ?_, ?_⟩
  · intro oldP newP
    simp [jsonformat.CheckCompatibility, e1, e2, e3, e4, e5, e6]
  · intro cb cf
    simp [avroLevelDispatch, e1, e2, e3, e4, e5, e6]
  · intro cb cf h7
    have e7 : (level == types.None) = false := by simp [h7]
    simp [protobufLevelDispatch, e1, e2, e3, e4, e5, e6, e7]

/-- Witness for the amended C4 theorem at an undefined level string. -/
theorem unknownLevelDispatchWitness :
    jsonformat.CheckCompatibility tNum tStr "BOGUS_LEVEL" = .ok true :=
  (unknownLevelDispatch "BOGUS_LEVEL" (by decide) (by decide) (by decide)
    (by decide) (by decide) (by decide)).1 tNum tStr

/-- C5 (code bug): on a property present in both schemas that became
required, the backward check of the JSON engine the registry imports returns
(true, nil), while the backward check of the duplicate JSON format file in
the repository rejects with the became-required error. -/
theorem becameRequiredDivergence :
    jsonformat.checkBackwardCompatibility [("x", propOptStr)] [("x", propReqStr)]
      = .ok true ∧
    jsonalt.isBackwardCompatible [("x", propOptStr)] [("x", propReqStr)]
      = .error "property x became required" := by
  constructor
  · decide
  · decide

/-- C6: registering text and format identical to the latest version returns
that version's ID and leaves the state (hence the version set) unchanged. -/
theorem registerIdempotentOnLatest {Text Data : Type} [DecidableEq Text]
    (formats : SchemaType → Option (SchemaFormat Text Data)) (st : RegState Text)
    (s : String) (text : Text) (stype : SchemaType) (fmt : SchemaFormat Text Data)
    (ls : Schema Text)
    (hf : formats stype = some fmt) (hval : fmt.validate text = .ok ())
    (hpos : 0 < Registry.getLatestVersion st s)
    (hlk : Registry.lookupSV st s (Registry.getLatestVersion st s) = some ls)
    (htext : ls.schema = text) (htype : ls.schemaType = stype) :
    Registry.RegisterSchema formats st s text stype = .ok (ls.id, st) := by
  unfold Registry.RegisterSchema
  rw [hf]
  simp only [hval, hlk, if_pos hpos, htext, htype, beq_self_eq_true, Bool.and_self,
    if_true]

/-- Witness: re-registering the latest content of subject a yields its ID 1
and the unchanged state. -/
theorem registerIdempotentOnLatestWitness :
    Registry.RegisterSchema formatsJ stOne "a" tA .JSON = .ok (1, stOne) :=
  registerIdempotentOnLatest formatsJ stOne "a" tA .JSON jsonPropsFormat eOne
    rfl rfl (by decide) (by decide) rfl rfl

/-- C9: the resolved level is the subject-specific one when stored, else the
global one when stored, else BACKWARD (in any state that stores no
subject-specific entry under the reserved name global, which
SetCompatibilityLevel never writes). -/
theorem compatibilityLevelResolution {Text : Type} (st : RegState Text) (s : String)
    (hwf : Registry.lookupSubjectConfig st "global" = none) :
    (∀ l, Registry.lookupSubjectConfig st s = some l →
      Registry.GetCompatibilityLevel st s = l) ∧
    (Registry.lookupSubjectConfig st s = none → ∀ g, st.globalConfig = some g →
      Registry.GetCompatibilityLevel st s = g) ∧
    (Registry.lookupSubjectConfig st s = none → st.globalConfig = none →
      Registry.GetCompatibilityLevel st s = types.Backward) := by
  unfold Registry.GetCompatibilityLevel
  by_cases hs : s = "global"
  · subst hs
    refine ⟨?_, ?_, ?_⟩
    · intro l hl
      rw [hwf] at hl
      cases hl
    · intro _ g hg
      simp [hg]
    · intro _ hg
      simp [hg]
  · have hne : (s != "global") = true := by simp [hs]
    refine ⟨?_, ?_, ?_⟩
    · intro l hl
      simp [hne, hl]
    · intro hnone g hg
      simp [hne, hnone, hg]
    · intro hnone hg
      simp [hne, hnone, hg]

/-- Witness: subject-specific, global-fallback and default resolution at
concrete states. -/
theorem compatibilityLevelResolutionWitness :
    Registry.GetCompatibilityLevel stCfg "a" = types.Full ∧
    Registry.GetCompatibilityLevel stCfg "b" = types.Forward ∧
    Registry.GetCompatibilityLevel st0 "b" = types.Backward :=
  ⟨(compatibilityLevelResolution stCfg "a" (by decide)).1 types.Full (by decide),
   (compatibilityLevelResolution stCfg "b" (by decide)).2.1 (by decide)
     types.Forward (by decide),
   (compatibilityLevelResolution st0 "b" (by decide)).2.2 (by decide) (by decide)⟩

/-- C7: deleting an existing numeric version removes exactly that
subject/version entry: every other subject/version entry, the whole by-ID
namespace (hence every GetSchema result), and the config are untouched. -/
theorem deleteSchemaVersionIsolated {Text : Type} [DecidableEq Text]
    (st : RegState Text) (s vs : String) (v : Nat) (e : Schema Text)
    (hvs : vs ≠ "latest") (hparse : Registry.atoiNat vs = some v)
    (hex : Registry.lookupSV st s v = some e) :
    Registry.DeleteSchemaVersion st s vs = .ok (Registry.delSV st s v) ∧
    Registry.lookupSV (Registry.delSV st s v) s v = none ∧
    (∀ s2 v2, ¬(s2 = s ∧ v2 = v) →
      Registry.lookupSV (Registry.delSV st s v) s2 v2 = Registry.lookupSV st s2 v2) ∧
    (Registry.delSV st s v).idEntries = st.idEntries ∧
    (∀ i, Registry.GetSchema (Registry.delSV st s v) i = Registry.GetSchema st i) ∧
    (Registry.delSV st s v).subjectConfig = st.subjectConfig ∧
    (Registry.delSV st s v).globalConfig = st.globalConfig := by
  refine ⟨?_, ?_, ?_, rfl, fun i => rfl, rfl, rfl⟩
  · simp [Registry.DeleteSchemaVersion, hvs, hparse, hex]
  · unfold Registry.lookupSV Registry.delSV
    rw [List.find?_eq_none]
    intro x hx hpred
    have hkeep := (List.mem_filter.mp hx).2
    rw [hpred] at hkeep
    simp at hkeep
  · intro s2 v2 hne
    unfold Registry.lookupSV Registry.delSV
    apply find?_filter_not
    intro x hqx
    simp only [Bool.and_eq_true, beq_iff_eq] at hqx
    obtain ⟨hxs, hxv⟩ := hqx
    rw [hxs, hxv]
    by_cases h1 : s2 = s
    · by_cases h2 : v2 = v
      · exact absurd ⟨h1, h2⟩ hne
      · simp [h2]
    · simp [h1]

/-- Witness: deleting version 1 of subject a leaves GetSchema of its ID 1
succeeding. -/
theorem deleteSchemaVersionIsolatedWitness :
    Registry.DeleteSchemaVersion stOne "a" "1" = .ok (Registry.delSV stOne "a" 1) ∧
    Registry.GetSchema (Registry.delSV stOne "a" 1) 1 = .ok eOne :=
  have h := deleteSchemaVersionIsolated stOne "a" "1" 1 eOne (by decide) (by decide)
    (by decide)
  ⟨h.1, (h.2.2.2.2.1 1).trans (by decide)⟩

/-- C8: Serialize emits the magic byte, the four big-endian ID bytes and the
format payload; Deserialize rejects inputs shorter than five bytes and a
nonzero magic byte, and on the envelope of any 31-bit ID recovers exactly
that ID and hands exactly the payload bytes to the format decoder. -/
theorem wireCodecEnvelope {Text Data : Type} [DecidableEq Text]
    (formats : SchemaType → Option (SchemaFormat Text Data)) (st : RegState Text) :
    (∀ (d : Data) (id : Nat) (sch : Schema Text) (fmt : SchemaFormat Text Data)
      (payload : List Nat), Registry.GetSchema st id = .ok sch →
      formats sch.schemaType = some fmt →
      fmt.serializeData d sch.schema = .ok payload →
      Registry.Serialize formats st d id = .ok (Registry.wireBytes id payload)) ∧
    (∀ id payload, id < 2 ^ 31 → Registry.wireBytes id payload =
      0 :: id / 2 ^ 24 % 256 :: id / 2 ^ 16 % 256 :: id / 2 ^ 8 % 256 :: id % 256
        :: payload) ∧
    (∀ data : List Nat, data.length < 5 →
      Registry.Deserialize formats st data = .error "data too short") ∧
    (∀ (b0 b1 b2 b3 b4 : Nat) (rest : List Nat), b0 ≠ 0 →
      Registry.Deserialize formats st (b0 :: b1 :: b2 :: b3 :: b4 :: rest) =
        .error "invalid magic byte") ∧
    (∀ (id : Nat) (payload : List Nat) (sch : Schema Text)
      (fmt : SchemaFormat Text Data), id < 2 ^ 31 →
      Registry.GetSchema st id = .ok sch → formats sch.schemaType = some fmt →
      Registry.Deserialize formats st (Registry.wireBytes id payload) =
        fmt.deserializeData payload sch.schema) := by
  refine ⟨?_, ?_, ?_, ?_, ?_⟩
  · intro d id sch fmt payload hget hfmt hser
    simp [Registry.Serialize, hget, hfmt, hser]
  · intro id payload _
    simp [Registry.wireBytes, Nat.shiftRight_eq_div_pow]
  · intro data hlen
    rcases data with _ | ⟨a, _ | ⟨b, _ | ⟨c, _ | ⟨d, _ | ⟨e, rest⟩⟩⟩⟩⟩
    · rfl
    · rfl
    · rfl
    · rfl
    · rfl
    · simp [List.length_cons] at hlen
      omega
  · intro b0 b1 b2 b3 b4 rest hb0
    simp [Registry.Deserialize, hb0]
  · intro id payload sch fmt hid hget hfmt
    have hwide : id < 2 ^ 32 := lt_trans hid (by norm_num)
    simp only [Registry.wireBytes, Registry.Deserialize, bne_self_eq_false,
      Bool.false_eq_true, if_false]
    rw [be32_roundtrip id hwide]
    simp [hget, hfmt]

/-- Witness: envelope round trip and both rejection paths at concrete
bytes. -/
theorem wireCodecEnvelopeWitness :
    Registry.Serialize formatsJ stOne [7, 8] 1 = .ok (Registry.wireBytes 1 [7, 8]) ∧
    Registry.Deserialize formatsJ stOne (Registry.wireBytes 1 [7, 8]) = .ok [7, 8] ∧
    Registry.Deserialize formatsJ stOne [0, 1] = .error "data too short" ∧
    Registry.Deserialize formatsJ stOne [9, 0, 0, 0, 1, 7] =
      .error "invalid magic byte" :=
  have h := wireCodecEnvelope formatsJ stOne
  ⟨h.1 [7, 8] 1 eOne jsonPropsFormat [7, 8] (by decide) rfl rfl,
   (h.2.2.2.2 1 [7, 8] eOne jsonPropsFormat (by norm_num) (by decide) rfl).trans rfl,
   h.2.2.1 [0, 1] (by norm_num),
   h.2.2.2.1 9 0 0 0 1 [7] (by norm_num)⟩

/-- Unfolding equation: the deletion loop on an empty version list. -/
theorem deleteSubjectLoop_nil {Text : Type} [DecidableEq Text] (s : String)
    (ids : List Nat) (st : RegState Text) :
    Registry.deleteSubjectLoop s [] ids st = (ids, st) := rfl

/-- Unfolding equation: the deletion loop when the version entry loads. -/
theorem deleteSubjectLoop_cons_some {Text : Type} [DecidableEq Text] (s : String)
    (v : Nat) (rest ids : List Nat) (st : RegState Text) (sch : Schema Text)
    (h : Registry.lookupSV st s v = some sch) :
    Registry.deleteSubjectLoop s (v :: rest) ids st =
      Registry.deleteSubjectLoop s rest (ids ++ [sch.id])
        (Registry.delSV (Registry.delId st sch.id) s v) := by
  conv_lhs => unfold Registry.deleteSubjectLoop
  rw [h]

/-- Unfolding equation: the deletion loop when the version entry is absent. -/
theorem deleteSubjectLoop_cons_none {Text : Type} [DecidableEq Text] (s : String)
    (v : Nat) (rest ids : List Nat) (st : RegState Text)
    (h : Registry.lookupSV st s v = none) :
    Registry.deleteSubjectLoop s (v :: rest) ids st =
      Registry.deleteSubjectLoop s rest ids (Registry.delSV st s v) := by
  conv_lhs => unfold Registry.deleteSubjectLoop
  rw [h]

/-- Deleting a subject/version key of another subject changes no lookup of
this one. -/
theorem lookupSV_delSV_ne_subject {Text : Type} [DecidableEq Text]
    (st : RegState Text) (s : String) (v : Nat) (s2 : String) (v2 : Nat)
    (hne : s2 ≠ s) :
    Registry.lookupSV (Registry.delSV st s v) s2 v2 = Registry.lookupSV st s2 v2 := by
  unfold Registry.lookupSV Registry.delSV
  apply find?_filter_not
  intro x hqx
  simp only [Bool.and_eq_true, beq_iff_eq] at hqx
  rw [hqx.1]
  simp [hne]

/-- Deleting a by-ID key removes that lookup. -/
theorem lookupId_delId_self {Text : Type} [DecidableEq Text]
    (st : RegState Text) (i : Nat) :
    Registry.lookupId (Registry.delId st i) i = none := by
  unfold Registry.lookupId Registry.delId
  rw [List.find?_eq_none]
  intro x hx hpred
  have hkeep := (List.mem_filter.mp hx).2
  rw [hpred] at hkeep
  simp at hkeep

/-- An absent by-ID lookup stays absent after deleting another key. -/
theorem lookupId_delId_none {Text : Type} [DecidableEq Text]
    (st : RegState Text) (i j : Nat) (h : Registry.lookupId st i = none) :
    Registry.lookupId (Registry.delId st j) i = none :=
  find?_filter_of_none _ _ _ h

/-- The deletion loop never resurrects an absent by-ID entry. -/
theorem deleteSubjectLoop_id_none {Text : Type} [DecidableEq Text] (s : String)
    (vs : List Nat) (ids : List Nat) (st : RegState Text) (i : Nat)
    (h : Registry.lookupId st i = none) :
    Registry.lookupId (Registry.deleteSubjectLoop s vs ids st).2 i = none := by
  induction vs generalizing ids st with
  | nil => rw [deleteSubjectLoop_nil]; exact h
  | cons v0 rest ih =>
    cases hlk : Registry.lookupSV st s v0 with
    | some sch =>
      rw [deleteSubjectLoop_cons_some s v0 rest ids st sch hlk]
      apply ih
      show Registry.lookupId (Registry.delId st sch.id) i = none
      exact lookupId_delId_none st i sch.id h
    | none =>
      rw [deleteSubjectLoop_cons_none s v0 rest ids st hlk]
      exact ih ids (Registry.delSV st s v0) h

/-- Every ID the deletion loop collects beyond its accumulator has its by-ID
entry deleted in the final state. -/
theorem deleteSubjectLoop_ids_deleted {Text : Type} [DecidableEq Text] (s : String)
    (vs : List Nat) (ids : List Nat) (st : RegState Text) :
    ∀ i ∈ (Registry.deleteSubjectLoop s vs ids st).1,
      i ∈ ids ∨ Registry.lookupId (Registry.deleteSubjectLoop s vs ids st).2 i = none := by
  induction vs generalizing ids st with
  | nil =>
    intro i hi
    rw [deleteSubjectLoop_nil] at hi ⊢
    exact Or.inl hi
  | cons v0 rest ih =>
    intro i hi
    cases hlk : Registry.lookupSV st s v0 with
    | some sch =>
      rw [deleteSubjectLoop_cons_some s v0 rest ids st sch hlk] at hi ⊢
      rcases ih (ids ++ [sch.id]) _ i hi with hin | hnone
      · rcases List.mem_append.mp hin with hold | hnew
        · exact Or.inl hold
        · have hieq : i = sch.id := by simpa using hnew
          subst hieq
          right
          apply deleteSubjectLoop_id_none
          exact lookupId_delId_self st sch.id
      · exact Or.inr hnone
    | none =>
      rw [deleteSubjectLoop_cons_none s v0 rest ids st hlk] at hi ⊢
      exact ih ids _ i hi

/-- The deletion loop does not touch the entries of other subjects. -/
theorem deleteSubjectLoop_other_subject {Text : Type} [DecidableEq Text]
    (s : String) (vs : List Nat) (ids : List Nat) (st : RegState Text)
    (s2 : String) (v2 : Nat) (hne : s2 ≠ s) :
    Registry.lookupSV (Registry.deleteSubjectLoop s vs ids st).2 s2 v2 =
      Registry.lookupSV st s2 v2 := by
  induction vs generalizing ids st with
  | nil => rw [deleteSubjectLoop_nil]
  | cons v0 rest ih =>
    cases hlk : Registry.lookupSV st s v0 with
    | some sch =>
      rw [deleteSubjectLoop_cons_some s v0 rest ids st sch hlk, ih]
      exact lookupSV_delSV_ne_subject _ s v0 s2 v2 hne
    | none =>
      rw [deleteSubjectLoop_cons_none s v0 rest ids st hlk, ih]
      exact lookupSV_delSV_ne_subject st s v0 s2 v2 hne

/-- The deletion loop removes every subject/version entry of the subject
whose version appears in the processed list. -/
theorem deleteSubjectLoop_subject_gone {Text : Type} [DecidableEq Text]
    (s : String) (vs : List Nat) (ids : List Nat) (st : RegState Text)
    (hcov : ∀ e ∈ st.subjectEntries, e.subject = s → e.version ∈ vs) :
    ∀ v, Registry.lookupSV (Registry.deleteSubjectLoop s vs ids st).2 s v = none := by
  induction vs generalizing ids st with
  | nil =>
    intro v
    rw [deleteSubjectLoop_nil]
    unfold Registry.lookupSV
    rw [List.find?_eq_none]
    intro x hx hpred
    simp only [Bool.and_eq_true, beq_iff_eq] at hpred
    exact absurd (hcov x hx hpred.1) (List.not_mem_nil _)
  | cons v0 rest ih =>
    intro v
    have hcov2 : ∀ (st2 : RegState Text),
        st2.subjectEntries = st.subjectEntries.filter
          (fun x => !(x.subject == s && x.version == v0)) →
        ∀ e ∈ st2.subjectEntries, e.subject = s → e.version ∈ rest := by
      intro st2 hst2 e he hes
      rw [hst2] at he
      have hbase := (List.mem_filter.mp he).1
      have hkeep := (List.mem_filter.mp he).2
      have hvne : e.version ≠ v0 := by
        intro hveq
        rw [hes, hveq] at hkeep
        simp at hkeep
      rcases List.mem_cons.mp (hcov e hbase hes) with hh | hh
      · exact absurd hh hvne
      · exact hh
    cases hlk : Registry.lookupSV st s v0 with
    | some sch =>
      rw [deleteSubjectLoop_cons_some s v0 rest ids st sch hlk]
      exact ih _ _ (hcov2 _ rfl) v
    | none =>
      rw [deleteSubjectLoop_cons_none s v0 rest ids st hlk]
      exact ih _ _ (hcov2 _ rfl) v

/-- The deletion loop leaves the config bucket alone. -/
theorem deleteSubjectLoop_config {Text : Type} [DecidableEq Text] (s : String)
    (vs : List Nat) (ids : List Nat) (st : RegState Text) :
    (Registry.deleteSubjectLoop s vs ids st).2.subjectConfig = st.subjectConfig ∧
    (Registry.deleteSubjectLoop s vs ids st).2.globalConfig = st.globalConfig := by
  induction vs generalizing ids st with
  | nil => exact ⟨rfl, rfl⟩
  | cons v0 rest ih =>
    cases hlk : Registry.lookupSV st s v0 with
    | some sch =>
      rw [deleteSubjectLoop_cons_some s v0 rest ids st sch hlk]
      exact ih _ _
    | none =>
      rw [deleteSubjectLoop_cons_none s v0 rest ids st hlk]
      exact ih _ _

/-- A subject entry contributes its version to the collected version list. -/
theorem mem_versionsOf {Text : Type} [DecidableEq Text] (st : RegState Text)
    (s : String) (e : Schema Text) (he : e ∈ st.subjectEntries)
    (hs : e.subject = s) : e.version ∈ Registry.versionsOf st s := by
  unfold Registry.versionsOf
  rw [(List.perm_insertionSort _ _).mem_iff, List.mem_filterMap]
  exact ⟨e, he, by simp [hs]⟩

/-- C3 (amended): deleteSubject removes every subject/version entry of the
subject and the by-ID entry of every collected ID unconditionally (shared or
not); entries of other subjects and the config survive. -/
theorem deleteSubjectEffects {Text : Type} [DecidableEq Text] (st : RegState Text)
    (s : String) (ids : List Nat) (st2 : RegState Text)
    (h : Registry.DeleteSubject st s = .ok (ids, st2)) :
    (∀ v, Registry.lookupSV st2 s v = none) ∧
    (∀ s2 v2, s2 ≠ s → Registry.lookupSV st2 s2 v2 = Registry.lookupSV st s2 v2) ∧
    (∀ i ∈ ids, Registry.lookupId st2 i = none) ∧
    st2.subjectConfig = st.subjectConfig ∧ st2.globalConfig = st.globalConfig := by
  unfold Registry.DeleteSubject at h
  cases hgv : Registry.GetVersions st s with
  | error e => rw [hgv] at h; cases h
  | ok versions =>
    rw [hgv] at h
    injection h with hpair
    have hver : versions = Registry.versionsOf st s := by
      unfold Registry.GetVersions at hgv
      by_cases hemp : (Registry.versionsOf st s).isEmpty
      · simp [hemp] at hgv
      · simp [hemp] at hgv
        exact hgv.symm
    have hL2 : (Registry.deleteSubjectLoop s versions [] st).2 = st2 := by rw [hpair]
    have hL1 : (Registry.deleteSubjectLoop s versions [] st).1 = ids := by rw [hpair]
    have hcov : ∀ e ∈ st.subjectEntries, e.subject = s → e.version ∈ versions := by
      intro e he hes
      rw [hver]
      exact mem_versionsOf st s e he hes
    refine ⟨?_, ?_, ?_, ?_, ?_⟩
    · intro v
      rw [← hL2]
      exact deleteSubjectLoop_subject_gone s versions [] st hcov v
    · intro s2 v2 hne
      rw [← hL2]
      exact deleteSubjectLoop_other_subject s versions [] st s2 v2 hne
    · intro i hi
      rw [← hL1] at hi
      rw [← hL2]
      rcases deleteSubjectLoop_ids_deleted s versions [] st i hi with hin | hnone
      · cases hin
      · exact hnone
    · rw [← hL2]
      exact (deleteSubjectLoop_config s versions [] st).1
    · rw [← hL2]
      exact (deleteSubjectLoop_config s versions [] st).2

/-- Witness for the amended C3 theorem at the shared-ID scenario. -/
theorem deleteSubjectEffectsWitness :
    Registry.lookupSV stSharedAfter "A" 1 = none ∧
    Registry.lookupId stSharedAfter 1 = none :=
  have h := deleteSubjectEffects stShared "A" [1] stSharedAfter (by decide)
  ⟨h.1 1, h.2.2.1 1 (by decide)⟩

/-- C3 (counterexample): subjects A and B share ID 1; deleteSubject(A)
deletes the by-ID entry anyway, so getSchema(1) fails afterwards even though
version 1 of B still references it. -/
theorem deleteSubjectRemovesSharedById :
    Registry.DeleteSubject stShared "A" = .ok ([1], stSharedAfter) ∧
    Registry.lookupSV stShared "B" 1 = some eSb ∧
    Registry.GetSchema stShared 1 = .ok eSa ∧
    Registry.GetSchema stSharedAfter 1 = .error "schema not found: 1" ∧
    Registry.lookupSV stSharedAfter "B" 1 = some eSb := by
  refine ⟨by decide, by decide, by decide, by decide, by decide⟩

/-- The collected version list is ascending. -/
theorem sorted_versionsOf {Text : Type} [DecidableEq Text] (st : RegState Text)
    (s : String) : (Registry.versionsOf st s).Sorted (· ≤ ·) :=
  List.sorted_insertionSort _ _

/-- With no duplicate subject/version keys, the key lookup of a stored entry
finds exactly that entry. -/
theorem find?_key_of_mem {Text : Type} [DecidableEq Text] (l : List (Schema Text))
    (hnd : (l.map (fun x => (x.subject, x.version))).Nodup)
    (e : Schema Text) (he : e ∈ l) :
    l.find? (fun x => x.subject == e.subject && x.version == e.version) = some e := by
  induction l with
  | nil => cases he
  | cons a t ih =>
    rw [List.map_cons, List.nodup_cons] at hnd
    rcases List.mem_cons.mp he with rfl | het
    · rw [List.find?_cons_of_pos _ (by simp)]
    · have hkey : ¬(a.subject = e.subject ∧ a.version = e.version) := by
        rintro ⟨h1, h2⟩
        apply hnd.1
        have : (e.subject, e.version) ∈ t.map (fun x => (x.subject, x.version)) :=
          List.mem_map_of_mem _ het
        rw [h1, h2]
        exact this
      have hpa : (a.subject == e.subject && a.version == e.version) = false := by
        by_cases h1 : a.subject = e.subject
        · by_cases h2 : a.version = e.version
          · exact absurd ⟨h1, h2⟩ hkey
          · simp [h2]
        · simp [h1]
      rw [List.find?_cons_of_neg _ (by simp [hpa]), ih hnd.2 het]

/-- The scan loop of LookupSchema on a sorted version list: a match at some
listed version yields a hit no later than that version. -/
theorem lookupLoop_spec {Text : Type} [DecidableEq Text] (st : RegState Text)
    (s : String) (text : Text) (stype : SchemaType) :
    ∀ vs : List Nat, vs.Sorted (· ≤ ·) →
    ∀ v e, v ∈ vs → Registry.lookupSV st s v = some e →
      e.schema = text → e.schemaType = stype →
      ∃ r, Registry.lookupLoop st s text stype vs = .ok r ∧
        Registry.lookupSV st s r.version = some r ∧
        r.schema = text ∧ r.schemaType = stype ∧ r.version ≤ v := by
  intro vs
  induction vs with
  | nil =>
    intro _ v e hv
    cases hv
  | cons v0 rest ih =>
    intro hsort v e hv he htext htype
    have hsort2 : rest.Sorted (· ≤ ·) := (List.sorted_cons.mp hsort).2
    have hmin : ∀ b ∈ rest, v0 ≤ b := (List.sorted_cons.mp hsort).1
    cases hlk : Registry.lookupSV st s v0 with
    | none =>
      have hvne : v ≠ v0 := by
        intro hh
        rw [hh, hlk] at he
        cases he
      have hv2 : v ∈ rest := by
        rcases List.mem_cons.mp hv with hh | hh
        · exact absurd hh hvne
        · exact hh
      obtain ⟨r, hr1, hr2, hr3, hr4, hr5⟩ := ih hsort2 v e hv2 he htext htype
      refine ⟨r, ?_, hr2, hr3, hr4, hr5⟩
      simpa [Registry.lookupLoop, hlk] using hr1
    | some sch =>
      by_cases hmatch : (sch.schema == text && sch.schemaType == stype) = true
      · have hfields : sch.subject = s ∧ sch.version = v0 := by
          have hfind := List.find?_some hlk
          simpa using hfind
        have hv0le : v0 ≤ v := by
          rcases List.mem_cons.mp hv with rfl | hh
          · exact le_refl v
          · exact hmin v hh
        refine ⟨sch, ?_, ?_, ?_, ?_, ?_⟩
        · simp [Registry.lookupLoop, hlk, hmatch]
        · rw [hfields.2]
          exact hlk
        · have hm := hmatch
          simp only [Bool.and_eq_true, beq_iff_eq] at hm
          exact hm.1
        · have hm := hmatch
          simp only [Bool.and_eq_true, beq_iff_eq] at hm
          exact hm.2
        · rw [hfields.2]
          exact hv0le
      · have hvne : v ≠ v0 := by
          intro hh
          rw [hh, hlk] at he
          injection he with he2
          apply hmatch
          rw [← he2] at htext htype
          simp [htext, htype]
        have hv2 : v ∈ rest := by
          rcases List.mem_cons.mp hv with hh | hh
          · exact absurd hh hvne
          · exact hh
        obtain ⟨r, hr1, hr2, hr3, hr4, hr5⟩ := ih hsort2 v e hv2 he htext htype
        refine ⟨r, ?_, hr2, hr3, hr4, hr5⟩
        simpa [Registry.lookupLoop, hlk, hmatch] using hr1

/-- C10: when some stored version of the subject matches the requested text
and format exactly, LookupSchema returns a matching stored entry whose
version is minimal among all matching versions (the ascending scan returns
the first hit). -/
theorem lookupSchemaFindsSmallestVersion {Text Data : Type} [DecidableEq Text]
    (formats : SchemaType → Option (SchemaFormat Text Data)) (st : RegState Text)
    (s : String) (text : Text) (stype : SchemaType) (fmt : SchemaFormat Text Data)
    (hf : formats stype = some fmt) (hval : fmt.validate text = .ok ())
    (hnd : (st.subjectEntries.map (fun x => (x.subject, x.version))).Nodup)
    (e : Schema Text) (he : e ∈ st.subjectEntries) (hs : e.subject = s)
    (htext : e.schema = text) (htype : e.schemaType = stype) :
    ∃ r, Registry.LookupSchema formats st s text stype = .ok r ∧
      Registry.lookupSV st s r.version = some r ∧
      r.schema = text ∧ r.schemaType = stype ∧
      ∀ e2 ∈ st.subjectEntries, e2.subject = s → e2.schema = text →
        e2.schemaType = stype → r.version ≤ e2.version := by
  have hmem : e.version ∈ Registry.versionsOf st s := mem_versionsOf st s e he hs
  have hnonempty : (Registry.versionsOf st s).isEmpty = false := by
    cases hE : Registry.versionsOf st s with
    | nil => rw [hE] at hmem; cases hmem
    | cons a t => simp
  have hGV : Registry.GetVersions st s = .ok (Registry.versionsOf st s) := by
    unfold Registry.GetVersions
    simp [hnonempty]
  have hsort := sorted_versionsOf st s
  have hlkE : Registry.lookupSV st s e.version = some e := by
    have hfk := find?_key_of_mem st.subjectEntries hnd e he
    unfold Registry.lookupSV
    rw [← hs]
    exact hfk
  obtain ⟨r, hloop, hrlk, hrtext, hrtype, _⟩ :=
    lookupLoop_spec st s text stype _ hsort e.version e hmem hlkE htext htype
  refine ⟨r, ?_, hrlk, hrtext, hrtype, ?_⟩
  · unfold Registry.LookupSchema
    rw [hf]
    simp only [hval, hGV]
    exact hloop
  · intro e2 he2 hs2 htext2 htype2
    have hmem2 : e2.version ∈ Registry.versionsOf st s := mem_versionsOf st s e2 he2 hs2
    have hlk2 : Registry.lookupSV st s e2.version = some e2 := by
      have hfk := find?_key_of_mem st.subjectEntries hnd e2 he2
      unfold Registry.lookupSV
      rw [← hs2]
      exact hfk
    obtain ⟨r2, hloop2, _, _, _, hle2⟩ :=
      lookupLoop_spec st s text stype _ hsort e2.version e2 hmem2 hlk2 htext2 htype2
    rw [hloop] at hloop2
    injection hloop2 with hr12
    rw [hr12]
    exact hle2

/-- Witness: the subject m holds the content at versions 2 and 3; the lookup
returns the version 2 entry. -/
theorem lookupSchemaFindsSmallestVersionWitness :
    ∃ r, Registry.LookupSchema formatsJ stLk "m" tA .JSON = .ok r ∧
      Registry.lookupSV stLk "m" r.version = some r ∧
      r.schema = tA ∧ r.schemaType = .JSON ∧
      ∀ e2 ∈ stLk.subjectEntries, e2.subject = "m" → e2.schema = tA →
        e2.schemaType = .JSON → r.version ≤ e2.version :=
  lookupSchemaFindsSmallestVersion formatsJ stLk "m" tA .JSON jsonPropsFormat
    rfl rfl (by decide) eM2 (by decide) rfl rfl rfl

end SchemaRegistry
